import Mathlib

/-
Verification development for the riscv-bootloader core
(boot decision / image validation / UART update protocol).

Shallow embedding of:
  src/src/main.c            : validate_app, uart_update, main
  src/src/flash.c           : flash_write, flash_erase_app, flash_write_header
  src/boards/qemu_virt/platform.c : platform flash write and erase semantics
  src/unnamed/part_000      : platform constants, PLATFORM_DIRECT_BOOT_AFTER_UPDATE
  src/unnamed/part_005      : the direct-boot variant of the main logic

All 32-bit machine integers are modelled as Nat with explicit reduction
modulo 2^32 where C unsigned arithmetic can wrap.  The application storage
region is modelled as a total function from byte offset (relative to
APP_BASE) to byte value.  Serial input is a finite list of byte values; a
session that would block forever on an exhausted input is reported with the
blocked outcome.
-/

namespace Boot

set_option maxRecDepth 8192

/- Platform constants from boards/qemu_virt (src/unnamed/part_000). -/
def APP_BASE : Nat := 0x80010000
def APP_MAX_SIZE : Nat := 448 * 1024
def BOOT_MAGIC : Nat := 0x5256424C
def PLATFORM_NAME : String := "QEMU Virt (RV32IM)"
def PLATFORM_DIRECT_BOOT_AFTER_UPDATE : Nat := 1

/- sizeof(fw_header_t): four uint32 fields, packed, little endian on RV32. -/
def HDR_SIZE : Nat := 16

def U32 : Nat := 4294967296

/- The firmware header record (include/boot.h). -/
structure fw_header_t where
  magic : Nat
  size : Nat
  crc32 : Nat
  version : Nat

/- The application storage region: byte value at each offset from APP_BASE. -/
abbrev Region := Nat → Nat

/- platform_flash_erase (boards/qemu_virt/platform.c): fill with 0xFF. -/
def erasedRegion : Region := fun _ => 0xFF

/- One byte store into the region. -/
def writeByte (r : Region) (off v : Nat) : Region :=
  fun o => if o = off then v else r o

/- Sequential byte stores, as platform_flash_write performs them. -/
def writeBytesList (r : Region) (off : Nat) (bs : List Nat) : Region :=
  match bs with
  | [] => r
  | b :: rest => writeBytesList (writeByte r off b) (off + 1) rest

/- Read a little-endian uint32 at the given offset, as the RV32 load of a
uint32 struct field does. -/
def readLE32 (r : Region) (off : Nat) : Nat :=
  r off % 256 + 256 * (r (off + 1) % 256) + 65536 * (r (off + 2) % 256) +
    16777216 * (r (off + 3) % 256)

/- Little-endian byte serialization of a uint32 value. -/
def le32Bytes (n : Nat) : List Nat :=
  [n % 256, n / 256 % 256, n / 65536 % 256, n / 16777216 % 256]

/- The `size` payload bytes following the header, as validate_app and
uart_update read them from the region. -/
def payloadBytes (r : Region) (n : Nat) : List Nat :=
  (List.range n).map (fun i => r (HDR_SIZE + i) % 256)

/-- Modelled from the spec: `src/crc32.c` is named in the Makefile but is not
present in the snapshot; section 4.1 specifies the zlib-compatible CRC-32
(reflected polynomial 0xEDB88320, initial value 0xFFFFFFFF, final xor
0xFFFFFFFF).  One bit step of the bit-driven form. -/
def crcBit (c : Nat) : Nat :=
  if c % 2 = 1 then Nat.xor (c / 2) 0xEDB88320 else c / 2

/-- Modelled from the spec: one input byte of the zlib-compatible CRC-32. -/
def crcByte (c b : Nat) : Nat :=
  Nat.iterate crcBit 8 (Nat.xor c (b % 256))

/-- Modelled from the spec: zlib-compatible CRC-32 over a byte list; the
result is a uint32 value. -/
def crc32 (bs : List Nat) : Nat :=
  Nat.xor (bs.foldl crcByte 4294967295) 4294967295 % U32

/- ========================= flash.c ========================= -/

/- platform_flash_write on qemu_virt always succeeds. -/
def platform_flash_write_result : Int := 0

/- flash_write (src/src/flash.c): bounds check, then delegate to the
platform.  `addr` is uint32_t and `size` is the 32-bit size_t of rv32, so
the C comparison `(addr + size) > (APP_BASE + APP_MAX_SIZE)` is computed
modulo 2^32.  The Bool records whether platform_flash_write was invoked. -/
def flash_write (addr : Nat) (data : List Nat) : Int × Bool :=
  if addr % U32 < APP_BASE ∨
      (addr % U32 + data.length % U32) % U32 > APP_BASE + APP_MAX_SIZE then
    (-1, false)
  else
    (platform_flash_write_result, true)

/- flash_erase_app (src/src/flash.c): erase the whole application
partition; on qemu_virt the platform erase always succeeds. -/
def flash_erase_app (_ : Region) : Int × Region :=
  (0, erasedRegion)

/- flash_write_header (src/src/flash.c): platform_flash_write of the 16
header bytes at APP_BASE (offset 0 of the region). -/
def flash_write_header (h : fw_header_t) (r : Region) : Int × Region :=
  (0, writeBytesList r 0
    (le32Bytes h.magic ++ le32Bytes h.size ++ le32Bytes h.crc32 ++
      le32Bytes h.version))

/- ========================= validate_app ========================= -/

inductive VResult where
  | ok
  | badMagic
  | badSize
  | crcMismatch
  deriving DecidableEq

/- validate_app (src/src/main.c lines 12-32): magic check, size bound
check, then CRC comparison, in that order, reading the region only. -/
def validate_app (r : Region) : VResult :=
  if readLE32 r 0 ≠ BOOT_MAGIC then .badMagic
  else if readLE32 r 4 = 0 ∨ readLE32 r 4 > APP_MAX_SIZE - HDR_SIZE then .badSize
  else if crc32 (payloadBytes r (readLE32 r 4)) ≠ readLE32 r 8 then .crcMismatch
  else .ok

/- validate_app instrumented with whether the checksum scan (the crc32
call, the only non-constant-time step) was executed. -/
def validate_appT (r : Region) : VResult × Bool :=
  if readLE32 r 0 ≠ BOOT_MAGIC then (.badMagic, false)
  else if readLE32 r 4 = 0 ∨ readLE32 r 4 > APP_MAX_SIZE - HDR_SIZE then
    (.badSize, false)
  else if crc32 (payloadBytes r (readLE32 r 4)) ≠ readLE32 r 8 then
    (.crcMismatch, true)
  else (.ok, true)

/- The uart_puts lines validate_app emits on each failure path. -/
def validateMsgs (r : Region) : List String :=
  match validate_app r with
  | .ok => []
  | .badMagic => ["Error: Invalid magic number\n\r"]
  | .badSize => ["Error: Invalid firmware size\n\r"]
  | .crcMismatch => ["Error: CRC mismatch\n\r"]

/- ========================= uart_update ========================= -/

/- Events of one run: the storage operations of the session, plus the
control-transfer operations (platform_reset, jump_to_app) and the
validate_app calls of the boot decision controller. -/
inductive Ev where
  | erase
  | payloadW (b : Nat)
  | headerW
  | validateEv (ok : Bool)
  | handoff
  | reset
  deriving DecidableEq

def isStorageEv : Ev → Bool
  | .erase => true
  | .payloadW _ => true
  | .headerW => true
  | _ => false

inductive Outcome where
  | cmdErr
  | sizeErr
  | eraseErr
  | headerErr
  | committed
  | blocked
  deriving DecidableEq

/- Result of one uart_update call: the uart_puts strings in order, the
event trace, the region state on return, the unconsumed serial input, the
final value of the local `size` variable, and how the session ended. -/
structure SessRes where
  out : List String
  evs : List Ev
  region : Region
  rest : List Nat
  size : Nat
  outcome : Outcome

/- The bytes of the literal command token "SEND ". -/
def SENDcmd : List Nat := [83, 69, 78, 68, 32]

/- The command-token loop of uart_update: one uart_getc per expected byte;
the first mismatching byte (already consumed) aborts.  none means the
serial input was exhausted (the C code would block forever). -/
def matchBytes : List Nat → List Nat → Option (Bool × List Nat)
  | [], input => some (true, input)
  | _ :: _, [] => none
  | c :: cs, b :: bs => if b = c then matchBytes cs bs else some (false, bs)

/- The size loop of uart_update: read until CR or LF, accumulate ASCII
decimal digits into the uint32 `size` (wrapping modulo 2^32), silently
skip every other byte. -/
def readSize : List Nat → Nat → Option (Nat × List Nat)
  | [], _ => none
  | c :: rest, acc =>
    if c = 13 ∨ c = 10 then some (acc, rest)
    else if 48 ≤ c ∧ c ≤ 57 then readSize rest ((acc * 10 + (c - 48)) % U32)
    else readSize rest acc

/- uart_update (src/src/main.c lines 46-109).  The qemu_virt platform
erase and write always succeed, so the ERR: ERASE and ERR: HEADER branches
of the source are unreachable in this embedding.  A committed session ends
in platform_reset. -/
def uart_update (input : List Nat) (r : Region) : SessRes :=
  match matchBytes SENDcmd input with
  | none => ⟨["OK\n\r"], [], r, [], 0, .blocked⟩
  | some (false, rest) => ⟨["OK\n\r", "ERR: CMD\n\r"], [], r, rest, 0, .cmdErr⟩
  | some (true, rest) =>
    match readSize rest 0 with
    | none => ⟨["OK\n\r"], [], r, [], 0, .blocked⟩
    | some (size, rest2) =>
      if size = 0 ∨ size > APP_MAX_SIZE - HDR_SIZE then
        ⟨["OK\n\r", "ERR: SIZE\n\r"], [], r, rest2, size, .sizeErr⟩
      else
        let r1 := (flash_erase_app r).2
        if rest2.length < size then
          let recvd := rest2.map (· % 256)
          ⟨["OK\n\r", "ERASING...\n\r", "READY\n\r"],
            Ev.erase :: recvd.map Ev.payloadW,
            writeBytesList r1 HDR_SIZE recvd, [], size, .blocked⟩
        else
          let recvd := (rest2.take size).map (· % 256)
          let r2 := writeBytesList r1 HDR_SIZE recvd
          let crc := crc32 (payloadBytes r2 size)
          let r3 := (flash_write_header ⟨BOOT_MAGIC, size, crc, 1⟩ r2).2
          ⟨["OK\n\r", "ERASING...\n\r", "READY\n\r", "CRC?\n\r", "OK\n\r",
              "REBOOT\n\r"],
            (Ev.erase :: recvd.map Ev.payloadW) ++ [Ev.headerW, Ev.reset],
            r3, rest2.drop size, size, .committed⟩

/- uart_update of the direct-boot variant (src/unnamed/part_005 lines
84-153), compiled with PLATFORM_DIRECT_BOOT_AFTER_UPDATE = 1 from
src/unnamed/part_000: a committed session calls jump_to_app directly
instead of platform_reset.  That variant passes "\n"-terminated literals
to uart_puts. -/
def uart_updateDB (input : List Nat) (r : Region) : SessRes :=
  match matchBytes SENDcmd input with
  | none => ⟨["OK\n"], [], r, [], 0, .blocked⟩
  | some (false, rest) => ⟨["OK\n", "ERR: CMD\n"], [], r, rest, 0, .cmdErr⟩
  | some (true, rest) =>
    match readSize rest 0 with
    | none => ⟨["OK\n"], [], r, [], 0, .blocked⟩
    | some (size, rest2) =>
      if size = 0 ∨ size > APP_MAX_SIZE - HDR_SIZE then
        ⟨["OK\n", "ERR: SIZE\n"], [], r, rest2, size, .sizeErr⟩
      else
        let r1 := (flash_erase_app r).2
        if rest2.length < size then
          let recvd := rest2.map (· % 256)
          ⟨["OK\n", "ERASING...\n", "READY\n"],
            Ev.erase :: recvd.map Ev.payloadW,
            writeBytesList r1 HDR_SIZE recvd, [], size, .blocked⟩
        else
          let recvd := (rest2.take size).map (· % 256)
          let r2 := writeBytesList r1 HDR_SIZE recvd
          let crc := crc32 (payloadBytes r2 size)
          let r3 := (flash_write_header ⟨BOOT_MAGIC, size, crc, 1⟩ r2).2
          if PLATFORM_DIRECT_BOOT_AFTER_UPDATE = 1 then
            ⟨["OK\n", "ERASING...\n", "READY\n", "CRC?\n", "OK\n",
                "REBOOT\n", "Jumping to application...\n", "APP_HANDOFF\n"],
              (Ev.erase :: recvd.map Ev.payloadW) ++ [Ev.headerW, Ev.handoff],
              r3, rest2.drop size, size, .committed⟩
          else
            ⟨["OK\n", "ERASING...\n", "READY\n", "CRC?\n", "OK\n",
                "REBOOT\n"],
              (Ev.erase :: recvd.map Ev.payloadW) ++ [Ev.headerW, Ev.reset],
              r3, rest2.drop size, size, .committed⟩

/- ========================= main (src/src/main.c) ========================= -/

structure MainRes where
  out : List String
  evs : List Ev
  region : Region

/- print_banner (src/src/main.c lines 5-10). -/
def bannerOut : List String :=
  ["\n\r======================================\n\r",
    "   Professional RISC-V Bootloader    \n\r",
    "   Target: " ++ PLATFORM_NAME ++ "        \n\r",
    "======================================\n\r"]

/- The recovery loop of main (src/src/main.c lines 137-141): block for one
byte; on a lowercase u run uart_update and continue; on anything else just
continue.  The fuel argument bounds the iterations by the length of the
remaining input, which every iteration shortens by at least one byte, so
fuel exhaustion coincides with input exhaustion (the C loop would block). -/
def recoveryLoopF : Nat → List Nat → Region → MainRes
  | 0, _, r => ⟨[], [], r⟩
  | fuel + 1, input, r =>
    match input with
    | [] => ⟨[], [], r⟩
    | c :: rest =>
      if c = 117 then
        let s := uart_update rest r
        match s.outcome with
        | .committed => ⟨s.out, s.evs, s.region⟩
        | .blocked => ⟨s.out, s.evs, s.region⟩
        | _ =>
          let m := recoveryLoopF fuel s.rest s.region
          ⟨s.out ++ m.out, s.evs ++ m.evs, m.region⟩
      else recoveryLoopF fuel rest r

/- The tail of main after the choice loop (src/src/main.c lines 133-142):
validate_app, then either jump_to_app or the recovery loop. -/
def validateAndBoot (input : List Nat) (r : Region) : MainRes :=
  if validate_app r = .ok then
    ⟨["Jumping to application...\n\r"], [Ev.validateEv true, Ev.handoff], r⟩
  else
    let m := recoveryLoopF input.length input r
    ⟨validateMsgs r ++
        ["Recovery Loop: No valid app found. Press 'u' to update.\n\r"] ++
        m.out,
      Ev.validateEv false :: m.evs, m.region⟩

/- The choice loop of main (src/src/main.c lines 118-131): read and echo
one byte; u or U runs uart_update and loops again; any other byte breaks
to validate-and-boot. -/
def mainLoopF : Nat → List Nat → Region → MainRes
  | 0, _, r => ⟨[], [], r⟩
  | fuel + 1, input, r =>
    match input with
    | [] => ⟨[], [], r⟩
    | c :: rest =>
      let echo := String.singleton (Char.ofNat c)
      if c = 117 ∨ c = 85 then
        let s := uart_update rest r
        match s.outcome with
        | .committed => ⟨echo :: s.out, s.evs, s.region⟩
        | .blocked => ⟨echo :: s.out, s.evs, s.region⟩
        | _ =>
          let m := mainLoopF fuel s.rest s.region
          ⟨echo :: (s.out ++ m.out), s.evs ++ m.evs, m.region⟩
      else
        let m := validateAndBoot rest r
        ⟨echo :: m.out, m.evs, m.region⟩

/- main (src/src/main.c lines 111-145). -/
def mainRun (input : List Nat) (r : Region) : MainRes :=
  let m := mainLoopF input.length input r
  ⟨bannerOut ++ ["BOOT?\n\r"] ++ m.out, m.evs, m.region⟩

/- ========================= region lemmas ========================= -/

theorem writeBytesList_apply (bs : List Nat) :
    ∀ (r : Region) (off o : Nat),
      writeBytesList r off bs o =
        if off ≤ o ∧ o - off < bs.length then bs.getD (o - off) 0 else r o := by
  induction bs with
  | nil =>
    intro r off o
    simp [writeBytesList]
  | cons b rest ih =>
    intro r off o
    show writeBytesList (writeByte r off b) (off + 1) rest o = _
    rw [ih]
    rcases Nat.lt_trichotomy o off with h | h | h
    · rw [if_neg (by omega), if_neg (by omega), writeByte, if_neg (by omega)]
    · subst h
      rw [if_neg (by omega), if_pos ⟨Nat.le_refl o, by simp⟩]
      simp [writeByte]
    · by_cases h2 : o - (off + 1) < rest.length
      · rw [if_pos ⟨by omega, h2⟩, if_pos ⟨by omega, by simp; omega⟩]
        have ho : o - off = (o - (off + 1)) + 1 := by omega
        rw [ho]
        simp
      · rw [if_neg (by simp; omega), if_neg (by simp; omega), writeByte,
          if_neg (by omega)]

theorem payloadBytes_write (recvd : List Nat) (sz : Nat)
    (hlen : recvd.length = sz) (hb : ∀ b ∈ recvd, b < 256) (r : Region) :
    payloadBytes (writeBytesList r HDR_SIZE recvd) sz = recvd := by
  apply List.ext_getElem
  · simp [payloadBytes, hlen]
  · intro i h1 h2
    simp only [payloadBytes, List.getElem_map, List.getElem_range]
    rw [writeBytesList_apply]
    rw [if_pos ⟨by omega, by omega⟩]
    have hi : HDR_SIZE + i - HDR_SIZE = i := by omega
    rw [hi, List.getD_eq_getElem recvd 0 h2]
    exact Nat.mod_eq_of_lt (hb _ (List.getElem_mem h2))

theorem payloadBytes_writeHeader (hs : List Nat) (hlen : hs.length ≤ HDR_SIZE)
    (r : Region) (sz : Nat) :
    payloadBytes (writeBytesList r 0 hs) sz = payloadBytes r sz := by
  unfold payloadBytes
  apply List.map_congr_left
  intro i _
  rw [writeBytesList_apply, if_neg]
  rintro ⟨-, h2⟩
  have : HDR_SIZE ≤ HDR_SIZE + i - 0 := by omega
  omega

theorem headerBytes_eq (m s c v : Nat) :
    le32Bytes m ++ le32Bytes s ++ le32Bytes c ++ le32Bytes v =
      [m % 256, m / 256 % 256, m / 65536 % 256, m / 16777216 % 256,
        s % 256, s / 256 % 256, s / 65536 % 256, s / 16777216 % 256,
        c % 256, c / 256 % 256, c / 65536 % 256, c / 16777216 % 256,
        v % 256, v / 256 % 256, v / 65536 % 256, v / 16777216 % 256] := rfl

theorem readLE32_writeHeader (r : Region) (m s c v : Nat) :
    readLE32 (writeBytesList r 0
      (le32Bytes m ++ le32Bytes s ++ le32Bytes c ++ le32Bytes v)) 0 = m % U32 ∧
    readLE32 (writeBytesList r 0
      (le32Bytes m ++ le32Bytes s ++ le32Bytes c ++ le32Bytes v)) 4 = s % U32 ∧
    readLE32 (writeBytesList r 0
      (le32Bytes m ++ le32Bytes s ++ le32Bytes c ++ le32Bytes v)) 8 = c % U32 := by
  rw [headerBytes_eq]
  unfold readLE32
  simp only [writeBytesList_apply]
  norm_num [U32]
  omega

theorem crc32_lt (bs : List Nat) : crc32 bs < U32 :=
  Nat.mod_lt _ (by norm_num [U32])

/- ========================= session lemmas ========================= -/

/- The region state the commit branch of uart_update leaves behind:
erase, payload write, then the header write with the CRC the session
computed over the stored payload. -/
def commitRegion (sz : Nat) (recvd : List Nat) : Region :=
  (flash_write_header
    ⟨BOOT_MAGIC, sz,
      crc32 (payloadBytes (writeBytesList erasedRegion HDR_SIZE recvd) sz), 1⟩
    (writeBytesList erasedRegion HDR_SIZE recvd)).2

/- Exhaustive description of uart_update, one disjunct per reachable
branch of the source. -/
theorem uart_update_cases (input : List Nat) (r : Region) :
    (uart_update input r = ⟨["OK\n\r"], [], r, [], 0, .blocked⟩) ∨
    (∃ rest, matchBytes SENDcmd input = some (false, rest) ∧
      uart_update input r =
        ⟨["OK\n\r", "ERR: CMD\n\r"], [], r, rest, 0, .cmdErr⟩) ∨
    (∃ rest sz rest2, matchBytes SENDcmd input = some (true, rest) ∧
      readSize rest 0 = some (sz, rest2) ∧
      (sz = 0 ∨ sz > APP_MAX_SIZE - HDR_SIZE) ∧
      uart_update input r =
        ⟨["OK\n\r", "ERR: SIZE\n\r"], [], r, rest2, sz, .sizeErr⟩) ∨
    (∃ rest sz rest2, matchBytes SENDcmd input = some (true, rest) ∧
      readSize rest 0 = some (sz, rest2) ∧
      ¬(sz = 0 ∨ sz > APP_MAX_SIZE - HDR_SIZE) ∧ rest2.length < sz ∧
      uart_update input r =
        ⟨["OK\n\r", "ERASING...\n\r", "READY\n\r"],
          Ev.erase :: (rest2.map (· % 256)).map Ev.payloadW,
          writeBytesList erasedRegion HDR_SIZE (rest2.map (· % 256)),
          [], sz, .blocked⟩) ∨
    (∃ rest sz rest2, matchBytes SENDcmd input = some (true, rest) ∧
      readSize rest 0 = some (sz, rest2) ∧
      ¬(sz = 0 ∨ sz > APP_MAX_SIZE - HDR_SIZE) ∧ ¬(rest2.length < sz) ∧
      uart_update input r =
        ⟨["OK\n\r", "ERASING...\n\r", "READY\n\r", "CRC?\n\r", "OK\n\r",
            "REBOOT\n\r"],
          (Ev.erase :: ((rest2.take sz).map (· % 256)).map Ev.payloadW) ++
            [Ev.headerW, Ev.reset],
          commitRegion sz ((rest2.take sz).map (· % 256)),
          rest2.drop sz, sz, .committed⟩) := by
  rcases h1 : matchBytes SENDcmd input with - | ⟨ok, rest⟩
  · left
    simp [uart_update, h1]
  · cases ok with
    | false =>
      right; left
      exact ⟨rest, rfl, by simp [uart_update, h1]⟩
    | true =>
      rcases h2 : readSize rest 0 with - | ⟨sz, rest2⟩
      · left
        simp [uart_update, h1, h2]
      · by_cases h3 : sz = 0 ∨ sz > APP_MAX_SIZE - HDR_SIZE
        · right; right; left
          exact ⟨rest, sz, rest2, rfl, h2, h3, by
            simp [uart_update, h1, h2, h3]⟩
        · by_cases h4 : rest2.length < sz
          · right; right; right; left
            exact ⟨rest, sz, rest2, rfl, h2, h3, h4, by
              simp only [uart_update, h1, h2, if_neg h3, if_pos h4,
                flash_erase_app]⟩
          · right; right; right; right
            exact ⟨rest, sz, rest2, rfl, h2, h3, h4, by
              simp only [uart_update, h1, h2, if_neg h3, if_neg h4,
                flash_erase_app, commitRegion]⟩

/- Event traces of uart_update contain only storage operations and the
final platform_reset: never a handoff and never a validate_app call. -/
theorem not_mem_map_payloadW (e : Ev) (hne : ∀ b, e ≠ Ev.payloadW b)
    (bs : List Nat) : e ∉ bs.map Ev.payloadW := by
  intro hx
  rcases List.mem_map.mp hx with ⟨a, -, ha⟩
  exact hne a ha.symm

theorem uu_no_handoff_validate (input : List Nat) (r : Region) :
    Ev.handoff ∉ (uart_update input r).evs ∧
      ∀ b, Ev.validateEv b ∉ (uart_update input r).evs := by
  rcases uart_update_cases input r with h | ⟨_, _, h⟩ | ⟨_, _, _, _, _, _, h⟩ |
    ⟨_, _, _, _, _, _, _, h⟩ | ⟨_, _, _, _, _, _, _, h⟩ <;> rw [h] <;> dsimp only
  · exact ⟨by simp, fun b => by simp⟩
  · exact ⟨by simp, fun b => by simp⟩
  · exact ⟨by simp, fun b => by simp⟩
  · constructor
    · intro hx
      rcases List.mem_cons.mp hx with hx | hx
      · cases hx
      · exact not_mem_map_payloadW _ (fun b h => by cases h) _ hx
    · intro b hx
      rcases List.mem_cons.mp hx with hx | hx
      · cases hx
      · exact not_mem_map_payloadW _ (fun a h => by cases h) _ hx
  · constructor
    · intro hx
      rcases List.mem_append.mp hx with hx | hx
      · rcases List.mem_cons.mp hx with hx | hx
        · cases hx
        · exact not_mem_map_payloadW _ (fun b h => by cases h) _ hx
      · simp at hx
    · intro b hx
      rcases List.mem_append.mp hx with hx | hx
      · rcases List.mem_cons.mp hx with hx | hx
        · cases hx
        · exact not_mem_map_payloadW _ (fun a h => by cases h) _ hx
      · simp at hx

/- Shape of the direct-boot session trace: aborted sessions write nothing,
a blocked transfer has erased and partially written, and a committed
session ends in the header write immediately followed by the handoff,
with no validate_app call anywhere. -/
theorem uart_updateDB_shape (input : List Nat) (r : Region) :
    ((uart_updateDB input r).evs = [] ∧
      (uart_updateDB input r).outcome ≠ .committed) ∨
    (∃ bs : List Nat, (uart_updateDB input r).evs = Ev.erase :: bs.map Ev.payloadW ∧
      (uart_updateDB input r).outcome = .blocked) ∨
    (∃ bs : List Nat, (uart_updateDB input r).evs =
        (Ev.erase :: bs.map Ev.payloadW) ++ [Ev.headerW, Ev.handoff] ∧
      (uart_updateDB input r).outcome = .committed) := by
  rcases h1 : matchBytes SENDcmd input with - | ⟨ok, rest⟩
  · left
    simp [uart_updateDB, h1]
  · cases ok with
    | false =>
      left
      simp [uart_updateDB, h1]
    | true =>
      rcases h2 : readSize rest 0 with - | ⟨sz, rest2⟩
      · left
        simp [uart_updateDB, h1, h2]
      · by_cases h3 : sz = 0 ∨ sz > APP_MAX_SIZE - HDR_SIZE
        · left
          simp [uart_updateDB, h1, h2, h3]
        · by_cases h4 : rest2.length < sz
          · right; left
            exact ⟨rest2.map (· % 256), by
              simp only [uart_updateDB, h1, h2, if_neg h3, if_pos h4], by
              simp only [uart_updateDB, h1, h2, if_neg h3, if_pos h4]⟩
          · right; right
            exact ⟨(rest2.take sz).map (· % 256), by
              simp [uart_updateDB, h1, h2, if_neg h3, if_neg h4,
                PLATFORM_DIRECT_BOOT_AFTER_UPDATE], by
              simp [uart_updateDB, h1, h2, if_neg h3, if_neg h4,
                PLATFORM_DIRECT_BOOT_AFTER_UPDATE]⟩

/- The recovery loop of src/src/main.c never performs a handoff. -/
theorem recovery_no_handoff (fuel : Nat) :
    ∀ (input : List Nat) (r : Region),
      Ev.handoff ∉ (recoveryLoopF fuel input r).evs := by
  induction fuel with
  | zero =>
    intro input r
    simp [recoveryLoopF]
  | succ n ih =>
    intro input r
    cases input with
    | nil => simp [recoveryLoopF]
    | cons c rest =>
      simp only [recoveryLoopF]
      by_cases hc : c = 117
      · rw [if_pos hc]
        split
        · exact (uu_no_handoff_validate rest r).1
        · exact (uu_no_handoff_validate rest r).1
        · intro hmem
          rcases List.mem_append.mp hmem with h | h
          · exact (uu_no_handoff_validate rest r).1 h
          · exact ih _ _ h
      · rw [if_neg hc]
        exact ih rest r

/- In src/src/main.c, every handoff is immediately preceded by a
successful validate_app and terminates the trace. -/
theorem mainLoop_handoff_gate (fuel : Nat) :
    ∀ (input : List Nat) (r : Region),
      Ev.handoff ∈ (mainLoopF fuel input r).evs →
      ∃ l, (mainLoopF fuel input r).evs =
        l ++ [Ev.validateEv true, Ev.handoff] := by
  induction fuel with
  | zero =>
    intro input r h
    simp [mainLoopF] at h
  | succ n ih =>
    intro input r
    cases input with
    | nil =>
      intro h
      simp [mainLoopF] at h
    | cons c rest =>
      simp only [mainLoopF]
      by_cases hc : c = 117 ∨ c = 85
      · rw [if_pos hc]
        split
        · intro h
          exact absurd h (uu_no_handoff_validate rest r).1
        · intro h
          exact absurd h (uu_no_handoff_validate rest r).1
        · intro h
          rcases List.mem_append.mp h with h2 | h2
          · exact absurd h2 (uu_no_handoff_validate rest r).1
          · obtain ⟨l, hl⟩ := ih _ _ h2
            exact ⟨(uart_update rest r).evs ++ l, by
              simp only [hl, List.append_assoc]⟩
      · rw [if_neg hc]
        simp only [validateAndBoot]
        by_cases hv : validate_app r = .ok
        · rw [if_pos hv]
          intro _
          exact ⟨[], rfl⟩
        · rw [if_neg hv]
          intro h
          simp only [List.mem_cons] at h
          rcases h with h | h
          · exact absurd h.symm (by simp)
          · exact absurd h (recovery_no_handoff _ _ _)

/- A committed update session leaves a region that validate_app accepts:
the header magic is the sentinel, the stored size is the session size, and
the stored CRC was computed over the stored payload. -/
theorem validate_commitRegion (sz : Nat) (recvd : List Nat)
    (h1 : sz ≠ 0) (h2 : sz ≤ APP_MAX_SIZE - HDR_SIZE) :
    validate_app (commitRegion sz recvd) = .ok := by
  have hlen : (le32Bytes BOOT_MAGIC ++ le32Bytes sz ++
      le32Bytes (crc32 (payloadBytes (writeBytesList erasedRegion HDR_SIZE recvd) sz)) ++
      le32Bytes 1).length ≤ HDR_SIZE := by
    simp [le32Bytes, HDR_SIZE]
  obtain ⟨hm, hs, hc⟩ := readLE32_writeHeader
    (writeBytesList erasedRegion HDR_SIZE recvd) BOOT_MAGIC sz
    (crc32 (payloadBytes (writeBytesList erasedRegion HDR_SIZE recvd) sz)) 1
  have hreg : commitRegion sz recvd = writeBytesList
      (writeBytesList erasedRegion HDR_SIZE recvd) 0
      (le32Bytes BOOT_MAGIC ++ le32Bytes sz ++
        le32Bytes (crc32 (payloadBytes (writeBytesList erasedRegion HDR_SIZE recvd) sz)) ++
        le32Bytes 1) := rfl
  have hszlt : sz % U32 = sz := Nat.mod_eq_of_lt (by
    have hb : APP_MAX_SIZE - HDR_SIZE < U32 := by
      norm_num [APP_MAX_SIZE, HDR_SIZE, U32]
    omega)
  have hmagic : BOOT_MAGIC % U32 = BOOT_MAGIC := by norm_num [BOOT_MAGIC, U32]
  have hcrc : crc32 (payloadBytes (writeBytesList erasedRegion HDR_SIZE recvd) sz) % U32 =
      crc32 (payloadBytes (writeBytesList erasedRegion HDR_SIZE recvd) sz) :=
    Nat.mod_eq_of_lt (crc32_lt _)
  have hpb := payloadBytes_writeHeader _ hlen
    (writeBytesList erasedRegion HDR_SIZE recvd) sz
  unfold validate_app
  rw [hreg, hm, hs, hc, hmagic, hszlt, hcrc, hpb]
  rw [if_neg (by simp), if_neg (by push_neg; exact ⟨h1, h2⟩),
    if_neg (by simp)]

/- Every line uart_update can emit is one of the fixed literals of the
source; in particular the session has no checksum-failure line. -/
theorem uu_out_lits (input : List Nat) (r : Region) :
    ∀ s ∈ (uart_update input r).out,
      s ∈ (["OK\n\r", "ERR: CMD\n\r", "ERR: SIZE\n\r", "ERASING...\n\r",
        "READY\n\r", "CRC?\n\r", "REBOOT\n\r"] : List String) := by
  rcases uart_update_cases input r with h | ⟨_, _, h⟩ | ⟨_, _, _, _, _, _, h⟩ |
    ⟨_, _, _, _, _, _, _, h⟩ | ⟨_, _, _, _, _, _, _, h⟩ <;> rw [h] <;>
    intro s hs <;> dsimp only at hs <;> simp at hs ⊢ <;> tauto

/- ========================= readSize lemmas ========================= -/

def isTermB (c : Nat) : Bool := decide (c = 13 ∨ c = 10)

def isDigitB (c : Nat) : Bool := decide (48 ≤ c ∧ c ≤ 57)

/- The digit bytes of the input stream strictly before the first line
terminator, as decimal digit values. -/
def digitsBeforeTerm (input : List Nat) : List Nat :=
  ((input.takeWhile (fun c => !(isTermB c))).filter isDigitB).map (fun c => c - 48)

/- The exact decimal value of a digit string. -/
def decVal (ds : List Nat) : Nat := ds.foldl (fun a d => a * 10 + d) 0

def foldDigits (a : Nat) (ds : List Nat) : Nat :=
  ds.foldl (fun x d => (x * 10 + d) % U32) a

theorem readSize_spec (input : List Nat) :
    ∀ (a : Nat) (p : Nat × List Nat), readSize input a = some p →
      p.1 = foldDigits a (digitsBeforeTerm input) ∧
      p.2 = (input.dropWhile (fun c => !(isTermB c))).tail := by
  induction input with
  | nil =>
    intro a p h
    simp [readSize] at h
  | cons c t ih =>
    intro a p h
    by_cases hterm : c = 13 ∨ c = 10
    · have hbt : isTermB c = true := by simp [isTermB, hterm]
      rw [readSize, if_pos hterm] at h
      cases h
      refine ⟨?_, ?_⟩
      · simp [digitsBeforeTerm, List.takeWhile_cons, hbt, foldDigits]
      · simp [List.dropWhile_cons, hbt]
    · have hbt : isTermB c = false := by simp [isTermB, hterm]
      by_cases hdig : 48 ≤ c ∧ c ≤ 57
      · have hbd : isDigitB c = true := by simp [isDigitB, hdig]
        rw [readSize, if_neg hterm, if_pos hdig] at h
        obtain ⟨ih1, ih2⟩ := ih _ _ h
        refine ⟨?_, ?_⟩
        · rw [ih1]
          simp [digitsBeforeTerm, List.takeWhile_cons, hbt, hbd, foldDigits]
        · rw [ih2]
          simp [List.dropWhile_cons, hbt]
      · have hbd : isDigitB c = false := by simp [isDigitB, hdig]
        rw [readSize, if_neg hterm, if_neg hdig] at h
        obtain ⟨ih1, ih2⟩ := ih _ _ h
        refine ⟨?_, ?_⟩
        · rw [ih1]
          simp [digitsBeforeTerm, List.takeWhile_cons, hbt, hbd]
        · rw [ih2]
          simp [List.dropWhile_cons, hbt]

theorem foldDigits_mod (ds : List Nat) :
    ∀ a : Nat, foldDigits (a % U32) ds =
      (ds.foldl (fun x d => x * 10 + d) a) % U32 := by
  induction ds with
  | nil =>
    intro a
    simp [foldDigits]
  | cons d t ih =>
    intro a
    have hstep : (a % U32 * 10 + d) % U32 = (a * 10 + d) % U32 :=
      ((Nat.mod_modEq a U32).mul_right 10).add_right d
    show foldDigits ((a % U32 * 10 + d) % U32) t = _
    rw [hstep, ih (a * 10 + d)]
    rfl

theorem foldDigits_zero (ds : List Nat) :
    foldDigits 0 ds = (ds.foldl (fun x d => x * 10 + d) 0) % U32 := by
  have := foldDigits_mod ds 0
  simpa using this

/- ========================= shared helpers ========================= -/

theorem filter_storage_payload (bs : List Nat) :
    (bs.map Ev.payloadW).filter (fun e => isStorageEv e) = bs.map Ev.payloadW := by
  apply List.filter_eq_self.mpr
  intro e he
  rcases List.mem_map.mp he with ⟨a, -, ha⟩
  rw [← ha]
  rfl

/- A committed uart_update run passes validate_app on its final region. -/
theorem uu_committed_validate_ok (input : List Nat) (r : Region)
    (h : (uart_update input r).outcome = .committed) :
    validate_app (uart_update input r).region = .ok := by
  rcases uart_update_cases input r with hc | ⟨_, _, hc⟩ | ⟨_, _, _, _, _, _, hc⟩ |
    ⟨_, _, _, _, _, _, _, hc⟩ | ⟨rest, sz, rest2, h1, h2, h3, h4, hc⟩
  · rw [hc] at h
    cases h
  · rw [hc] at h
    cases h
  · rw [hc] at h
    cases h
  · rw [hc] at h
    cases h
  · rw [hc]
    push_neg at h3
    exact validate_commitRegion sz _ h3.1 h3.2

/- A region validate_app accepts has its stored CRC equal to the CRC
recomputed over the stored payload. -/
theorem validate_ok_crc (r : Region) (h : validate_app r = .ok) :
    crc32 (payloadBytes r (readLE32 r 4)) = readLE32 r 8 := by
  unfold validate_app at h
  by_cases h1 : readLE32 r 0 ≠ BOOT_MAGIC
  · rw [if_pos h1] at h
    cases h
  · rw [if_neg h1] at h
    by_cases h2 : readLE32 r 4 = 0 ∨ readLE32 r 4 > APP_MAX_SIZE - HDR_SIZE
    · rw [if_pos h2] at h
      cases h
    · rw [if_neg h2] at h
      by_cases h3 : crc32 (payloadBytes r (readLE32 r 4)) ≠ readLE32 r 8
      · rw [if_pos h3] at h
        cases h
      · push_neg at h3
        exact h3

/- The T1 demo transfer: command token, "4", LF, payload DE AD BE EF. -/
def demoSession : List Nat := SENDcmd ++ [52, 10] ++ [222, 173, 190, 239]

/- The region a committed demo session leaves behind. -/
def demoRegion : Region := (uart_update demoSession erasedRegion).region

/- ========================= claim theorems ========================= -/

/-- C2: in every update session, the header write is the last storage write
of the session: it occurs only in the committed branch, after the erase and
after exactly `size` payload byte writes, and no storage write follows it
(the only later event is the platform reset, which is not a storage
operation). -/
theorem C2_header_write_last (input : List Nat) (r : Region)
    (h : Ev.headerW ∈ (uart_update input r).evs) :
    ∃ bs : List Nat,
      (uart_update input r).evs =
        (Ev.erase :: bs.map Ev.payloadW) ++ [Ev.headerW, Ev.reset] ∧
      bs.length = (uart_update input r).size ∧
      (uart_update input r).evs.filter (fun e => isStorageEv e) =
        (Ev.erase :: bs.map Ev.payloadW) ++ [Ev.headerW] ∧
      (uart_update input r).outcome = .committed := by
  rcases uart_update_cases input r with hc | ⟨_, _, hc⟩ | ⟨_, _, _, _, _, _, hc⟩ |
    ⟨_, _, _, _, _, _, _, hc⟩ | ⟨rest, sz, rest2, h1, h2, h3, h4, hc⟩
  · rw [hc] at h
    simp at h
  · rw [hc] at h
    simp at h
  · rw [hc] at h
    simp at h
  · rw [hc] at h
    dsimp only at h
    rcases List.mem_cons.mp h with h | h
    · cases h
    · exact absurd h (not_mem_map_payloadW _ (fun b hh => by cases hh) _)
  · refine ⟨(rest2.take sz).map (· % 256), ?_, ?_, ?_, ?_⟩
    · rw [hc]
    · rw [hc]
      dsimp only
      simp only [List.length_map, List.length_take]
      omega
    · rw [hc]
      dsimp only
      simp only [List.filter_append, List.filter_cons, filter_storage_payload]
      rfl
    · rw [hc]

/-- C2 witness: the demo session commits and its trace is erase, then the
four payload writes, then the header write as last storage operation. -/
theorem C2_header_write_last_witness :
    ∃ bs : List Nat,
      (uart_update demoSession erasedRegion).evs =
        (Ev.erase :: bs.map Ev.payloadW) ++ [Ev.headerW, Ev.reset] ∧
      bs.length = (uart_update demoSession erasedRegion).size ∧
      (uart_update demoSession erasedRegion).evs.filter (fun e => isStorageEv e) =
        (Ev.erase :: bs.map Ev.payloadW) ++ [Ev.headerW] ∧
      (uart_update demoSession erasedRegion).outcome = .committed :=
  C2_header_write_last demoSession erasedRegion (by decide)

/-- C3: validate_app performs exactly the three checks, in the order magic,
size bound, checksum, with short-circuiting: each error is returned iff
its check fails and every earlier check passed; the checksum scan runs iff
the two cheap checks pass; validation succeeds iff all three pass.  The
function is a pure read: it takes only the region and returns only the
verdict. -/
theorem C3_validate_three_checks (r : Region) :
    validate_app r = (validate_appT r).1 ∧
    ((validate_appT r).1 = .badMagic ↔ readLE32 r 0 ≠ BOOT_MAGIC) ∧
    ((validate_appT r).1 = .badSize ↔ readLE32 r 0 = BOOT_MAGIC ∧
      (readLE32 r 4 = 0 ∨ readLE32 r 4 > APP_MAX_SIZE - HDR_SIZE)) ∧
    ((validate_appT r).1 = .crcMismatch ↔ readLE32 r 0 = BOOT_MAGIC ∧
      ¬(readLE32 r 4 = 0 ∨ readLE32 r 4 > APP_MAX_SIZE - HDR_SIZE) ∧
      crc32 (payloadBytes r (readLE32 r 4)) ≠ readLE32 r 8) ∧
    ((validate_appT r).1 = .ok ↔ readLE32 r 0 = BOOT_MAGIC ∧
      ¬(readLE32 r 4 = 0 ∨ readLE32 r 4 > APP_MAX_SIZE - HDR_SIZE) ∧
      crc32 (payloadBytes r (readLE32 r 4)) = readLE32 r 8) ∧
    ((validate_appT r).2 = true ↔ readLE32 r 0 = BOOT_MAGIC ∧
      ¬(readLE32 r 4 = 0 ∨ readLE32 r 4 > APP_MAX_SIZE - HDR_SIZE)) := by
  by_cases h1 : readLE32 r 0 = BOOT_MAGIC
  · by_cases h2 : readLE32 r 4 = 0 ∨ readLE32 r 4 > APP_MAX_SIZE - HDR_SIZE
    · simp [validate_app, validate_appT, h1, h2]
    · by_cases h3 : crc32 (payloadBytes r (readLE32 r 4)) = readLE32 r 8
      · simp [validate_app, validate_appT, h1, h2, h3]
      · simp [validate_app, validate_appT, h1, h2, h3]
  · simp [validate_app, validate_appT, h1]

/-- C4: when the parsed size is zero or exceeds the partition capacity
minus the header size, the session emits exactly OK then ERR: SIZE and
aborts before any storage operation: the event trace is empty (so the
erase count is zero) and the region is returned unchanged. -/
theorem C4_bad_size_aborts_before_erase (input : List Nat) (r : Region)
    (rest : List Nat) (sz : Nat) (rest2 : List Nat)
    (hcmd : matchBytes SENDcmd input = some (true, rest))
    (hsize : readSize rest 0 = some (sz, rest2))
    (hbad : sz = 0 ∨ sz > APP_MAX_SIZE - HDR_SIZE) :
    (uart_update input r).outcome = .sizeErr ∧
    (uart_update input r).out = ["OK\n\r", "ERR: SIZE\n\r"] ∧
    (uart_update input r).evs = [] ∧
    Ev.erase ∉ (uart_update input r).evs ∧
    (uart_update input r).region = r := by
  have h : uart_update input r =
      ⟨["OK\n\r", "ERR: SIZE\n\r"], [], r, rest2, sz, .sizeErr⟩ := by
    simp only [uart_update, hcmd, hsize]
    rw [if_pos hbad]
  rw [h]
  exact ⟨rfl, rfl, rfl, by simp, rfl⟩

/-- C4 witness: the session input SEND 0 with a line feed parses size 0,
aborts with ERR: SIZE, performs no erase and leaves the region unchanged. -/
theorem C4_bad_size_witness :
    (uart_update (SENDcmd ++ [48, 10]) erasedRegion).outcome = .sizeErr ∧
    (uart_update (SENDcmd ++ [48, 10]) erasedRegion).out =
      ["OK\n\r", "ERR: SIZE\n\r"] ∧
    (uart_update (SENDcmd ++ [48, 10]) erasedRegion).evs = [] ∧
    Ev.erase ∉ (uart_update (SENDcmd ++ [48, 10]) erasedRegion).evs ∧
    (uart_update (SENDcmd ++ [48, 10]) erasedRegion).region = erasedRegion :=
  C4_bad_size_aborts_before_erase (SENDcmd ++ [48, 10]) erasedRegion
    [48, 10] 0 [] (by decide) (by decide) (Or.inl rfl)

/-- C6: every update session that reaches the committed outcome leaves a
region on which validate_app succeeds: stored magic, size bound and stored
checksum all verify against the stored contents. -/
theorem C6_commit_then_validate (input : List Nat) (r : Region)
    (h : (uart_update input r).outcome = .committed) :
    validate_app (uart_update input r).region = .ok :=
  uu_committed_validate_ok input r h

/-- C6 witness: the committed demo session yields a region that
validate_app accepts. -/
theorem C6_commit_then_validate_witness :
    validate_app (uart_update demoSession erasedRegion).region = .ok :=
  C6_commit_then_validate demoSession erasedRegion (by decide)

/-- C7: a fully erased region (every byte at the erased-state value 0xFF)
fails validation with BadMagic. -/
theorem C7_erased_fails_bad_magic (r : Region)
    (h : ∀ o, o < APP_MAX_SIZE → r o = 255) :
    validate_app r = .badMagic := by
  have hval : readLE32 r 0 = 4294967295 := by
    unfold readLE32
    rw [h 0 (by norm_num [APP_MAX_SIZE]), h 1 (by norm_num [APP_MAX_SIZE]),
      h 2 (by norm_num [APP_MAX_SIZE]), h 3 (by norm_num [APP_MAX_SIZE])]
  unfold validate_app
  rw [hval]
  norm_num [BOOT_MAGIC]

/-- C7 witness: the all-0xFF region produced by erase fails with BadMagic. -/
theorem C7_erased_fails_bad_magic_witness :
    validate_app erasedRegion = .badMagic :=
  C7_erased_fails_bad_magic erasedRegion (fun _ _ => rfl)

/-- C1 counterexample: with PLATFORM_DIRECT_BOOT_AFTER_UPDATE = 1
(src/unnamed/part_000) the part_005 update session, on the concrete demo
input, performs the handoff itself directly after the header write, with
no validate_app call anywhere in its trace: the handoff is reached from
the update session with no intervening validation. -/
theorem C1_direct_boot_counterexample :
    Ev.handoff ∈ (uart_updateDB demoSession erasedRegion).evs ∧
      ∀ b : Bool, Ev.validateEv b ∉ (uart_updateDB demoSession erasedRegion).evs := by
  decide

/-- C1 amended: in src/src/main.c every handoff is immediately preceded by
a successful validate_app on the current region and terminates the trace,
and the recovery loop never performs a handoff; however, in the part_005
variant with PLATFORM_DIRECT_BOOT_AFTER_UPDATE = 1 a committed update
session performs the handoff itself, directly after its own header write
and without invoking validate_app. -/
theorem C1_handoff_gate_amended :
    (∀ (input : List Nat) (r : Region),
      Ev.handoff ∈ (mainRun input r).evs →
      ∃ l, (mainRun input r).evs = l ++ [Ev.validateEv true, Ev.handoff]) ∧
    (∀ (fuel : Nat) (input : List Nat) (r : Region),
      Ev.handoff ∉ (recoveryLoopF fuel input r).evs) ∧
    (∀ (input : List Nat) (r : Region),
      (uart_updateDB input r).outcome = .committed →
        Ev.handoff ∈ (uart_updateDB input r).evs ∧
        ∀ b, Ev.validateEv b ∉ (uart_updateDB input r).evs) := by
  refine ⟨?_, ?_, ?_⟩
  · intro input r h
    exact mainLoop_handoff_gate input.length input r h
  · intro fuel input r
    exact recovery_no_handoff fuel input r
  · intro input r h
    rcases uart_updateDB_shape input r with ⟨he, hne⟩ | ⟨bs, he, hb⟩ | ⟨bs, he, -⟩
    · exact absurd h hne
    · rw [hb] at h
      cases h
    · rw [he]
      constructor
      · simp
      · intro b hx
        rcases List.mem_append.mp hx with hx | hx
        · rcases List.mem_cons.mp hx with hx | hx
          · cases hx
          · exact not_mem_map_payloadW _ (fun a hh => by cases hh) _ hx
        · simp at hx

/-- C1 witness: on a run of src/src/main.c that boots the image committed
by the demo session, the trace ends with a successful validate_app event
immediately followed by the handoff. -/
theorem C1_handoff_gate_witness :
    ∃ l, (mainRun [13] demoRegion).evs =
      l ++ [Ev.validateEv true, Ev.handoff] :=
  C1_handoff_gate_amended.1 [13] demoRegion (by decide)

/-- C5 counterexample: the bounds check of flash_write adds addr and
length in 32-bit wrapping arithmetic, so the request at addr 0xFFFFFFFF
with one data byte is out of bounds in the claimed (exact) arithmetic,
yet flash_write invokes the platform write and returns its success result
instead of failing with -1. -/
theorem C5_wraparound_counterexample :
    flash_write 4294967295 [0] = (0, true) ∧
      ¬ 4294967295 < APP_BASE ∧
      4294967295 + 1 > APP_BASE + APP_MAX_SIZE := by
  decide

/-- C5 amended: flash_write fails with -1 and never reaches the platform
iff addr (reduced mod 2^32) is below APP_BASE or the 32-bit wrapping sum
of addr and the data length exceeds APP_BASE + APP_MAX_SIZE; in every
other case, including requests whose exact sum addr + length overflows
2^32, the platform write is invoked and its result 0 is propagated. -/
theorem C5_flash_write_amended (addr : Nat) (data : List Nat)
    (ha : addr < U32) :
    (flash_write addr data = (-1, false) ↔
      (addr < APP_BASE ∨
        (addr + data.length % U32) % U32 > APP_BASE + APP_MAX_SIZE)) ∧
    (¬(addr < APP_BASE ∨
        (addr + data.length % U32) % U32 > APP_BASE + APP_MAX_SIZE) →
      flash_write addr data = (0, true)) := by
  have hmod : addr % U32 = addr := Nat.mod_eq_of_lt ha
  unfold flash_write
  rw [hmod]
  constructor
  · constructor
    · intro h
      by_contra hn
      rw [if_neg hn] at h
      simp [platform_flash_write_result] at h
    · intro h
      rw [if_pos h]
  · intro h
    rw [if_neg h]
    rfl

/-- C5 witness: an in-bounds write at APP_BASE of one byte reaches the
platform and succeeds. -/
theorem C5_flash_write_witness :
    flash_write APP_BASE [7] = (0, true) :=
  (C5_flash_write_amended APP_BASE [7] (by decide)).2 (by decide)

/-- C8 counterexample: no host input whatsoever can make an update session
report a checksum failure: the session output never contains the
validation CRC-mismatch line nor any ERR: CRC line, because the session
computes the header checksum itself from the bytes it received. -/
theorem C8_no_crc_fail_counterexample :
    ¬ ∃ (input : List Nat) (r : Region),
      ("Error: CRC mismatch\n\r" ∈ (uart_update input r).out ∨
        "ERR: CRC\n\r" ∈ (uart_update input r).out) := by
  rintro ⟨input, r, h | h⟩
  · have hm := uu_out_lits input r _ h
    simp at hm
  · have hm := uu_out_lits input r _ h
    simp at hm

/-- C8 amended: the update session cannot detect transfer corruption: it
never emits a checksum-failure line, and on every committed session the
stored header checksum equals the checksum recomputed over the stored
payload, because the session computed it from the received (possibly
corrupted) bytes; a corrupted payload is therefore committed and a
checksum mismatch can only ever be reported by validate_app at boot. -/
theorem C8_session_self_consistent :
    (∀ (input : List Nat) (r : Region),
      "Error: CRC mismatch\n\r" ∉ (uart_update input r).out ∧
      "ERR: CRC\n\r" ∉ (uart_update input r).out) ∧
    (∀ (input : List Nat) (r : Region),
      (uart_update input r).outcome = .committed →
        crc32 (payloadBytes (uart_update input r).region
            (readLE32 (uart_update input r).region 4)) =
          readLE32 (uart_update input r).region 8) := by
  constructor
  · intro input r
    constructor
    · intro h
      have hm := uu_out_lits input r _ h
      simp at hm
    · intro h
      have hm := uu_out_lits input r _ h
      simp at hm
  · intro input r h
    exact validate_ok_crc _ (uu_committed_validate_ok input r h)

/-- C8 witness: the committed demo session has a stored checksum matching
the stored payload. -/
theorem C8_session_self_consistent_witness :
    crc32 (payloadBytes (uart_update demoSession erasedRegion).region
        (readLE32 (uart_update demoSession erasedRegion).region 4)) =
      readLE32 (uart_update demoSession erasedRegion).region 8 :=
  C8_session_self_consistent.2 demoSession erasedRegion (by decide)

/- ========================= serial token scan (C9) ========================= -/

/- True iff the pattern is a leading segment of the text. -/
def leadMatch : List Char → List Char → Bool
  | [], _ => true
  | _ :: _, [] => false
  | p :: ps, c :: cs => (p == c) && leadMatch ps cs

/- True iff the pattern occurs anywhere inside the text. -/
def subScan (pat : List Char) : List Char → Bool
  | [] => leadMatch pat []
  | c :: cs => leadMatch pat (c :: cs) || subScan pat cs

/- True iff `pat` occurs as a substring of `s`. -/
def strHasTok (s pat : String) : Bool := subScan pat.toList s.toList

/-- C9: false on the code: on the boot attempt with an erased region (one
carriage return at the BOOT? prompt) the run emits the legacy literal
lines, including BOOT?, but not one single machine-parsable BL_EVT or
APP_EVT token line: the two forms are not emitted together, the
machine-parsable form is absent entirely. -/
theorem C9_no_token_lines :
    "BOOT?\n\r" ∈ (mainRun [13] (fun _ => 255)).out ∧
    (mainRun [13] (fun _ => 255)).out ≠ [] ∧
    (mainRun [13] (fun _ => 255)).out.all
      (fun l => !(strHasTok l "BL_EVT") && !(strHasTok l "APP_EVT")) = true := by
  decide

/-- C10: the AwaitSize parser never aborts on a non-digit byte: for every
input on which it terminates, the parsed size is the decimal value,
reduced modulo 2^32, of exactly the digit bytes preceding the first line
terminator, and parsing resumes right after that terminator. -/
theorem C10_await_size_skip (input : List Nat) (sz : Nat) (rest : List Nat)
    (h : readSize input 0 = some (sz, rest)) :
    sz = decVal (digitsBeforeTerm input) % U32 ∧
    rest = (input.dropWhile (fun c => !(isTermB c))).tail := by
  obtain ⟨h1, h2⟩ := readSize_spec input 0 (sz, rest) h
  dsimp only at h1 h2
  refine ⟨?_, h2⟩
  rw [h1]
  exact foldDigits_zero _

/-- C10 witness: the bytes "1x2" followed by a line feed parse as size 12
with the stray x silently skipped. -/
theorem C10_await_size_skip_witness :
    (12 : Nat) = decVal (digitsBeforeTerm [49, 120, 50, 10]) % U32 ∧
    ([] : List Nat) =
      (([49, 120, 50, 10] : List Nat).dropWhile (fun c => !(isTermB c))).tail :=
  C10_await_size_skip [49, 120, 50, 10] 12 [] (by decide)

end Boot
